import Mathlib

/-!
Shallow embedding of src/Sec3_Digitopia.js: an in-memory abuse-mitigation
engine combining rate counting, violation escalation, timed blocking and
reputation scoring.

Modelling conventions: JS objects used as string-keyed tables become
association lists (first binding wins, as a JS property has one slot);
Date.now() timestamps are Nat milliseconds; reputation scores are Int
(JS numbers holding integers); an absent HTTP header is none and a present
header carries its string value.
-/

namespace Digitopia

/-- A JS object used as a string-keyed table. -/
abbrev Table (α : Type) : Type := List (String × α)

/-- Property read on a table: value stored under a key, if any. -/
def lookupKey {α : Type} : Table α → String → Option α
  | [], _ => none
  | (k, v) :: rest, key => if k = key then some v else lookupKey rest key

/-- Property write on a table: replace the binding for a key, or append one. -/
def setKey {α : Type} : Table α → String → α → Table α
  | [], key, v => [(key, v)]
  | (k, w) :: rest, key, v =>
      if k = key then (key, v) :: rest else (k, w) :: setKey rest key v

/-- JS truthiness of an optional header value: present with a non-empty string. -/
def truthy : Option String → Bool
  | none => false
  | some s => s != ""

/-- Source computeBlockMs: 1st violation 1 minute, 2nd 5 minutes, anything
else 60 minutes (the handler only ever passes counts from 1 upward). -/
def computeBlockMs (violations : Nat) : Nat :=
  if violations = 1 then 1 * 60 * 1000
  else if violations = 2 then 5 * 60 * 1000
  else 60 * 60 * 1000

/-- Source humanMinutes, Math.round(ms / 60000); for a natural ms this is
floor((ms + 30000) / 60000), JS rounding half up. -/
def humanMinutes (ms : Nat) : Nat := (ms + 30000) / 60000

/-- The remainingSeconds field of a deny response, Math.round(ms / 1000). -/
def humanSeconds (ms : Nat) : Nat := (ms + 500) / 1000

/-- Entry of the penalties table. -/
structure PenaltyRecord where
  violations : Nat
  blockedUntil : Nat
  deriving DecidableEq

/-- Entry of the reputation table. -/
structure RepRecord where
  score : Int
  lastUpdated : Nat
  deriving DecidableEq

/-- Length of the JS list s.split(","): splitting at a one-character
separator yields one more field than there are separator characters, for
the empty string included (JS gives a single empty field there). -/
def splitCount (s : String) : Nat := s.toList.count (Char.ofNat 44) + 1

/-- Source detectTorVpn, as a pure function of the three headers it reads.
JS truthiness makes a present-but-empty header value behave like an absent
one in both checks. -/
def detectTorVpn (forwarded via torHeader : Option String) : Bool :=
  let suspicious := truthy forwarded || truthy via || truthy torHeader
  if truthy forwarded && decide (1 < splitCount (forwarded.getD "")) then
    true
  else suspicious

/-- Source updateReputation: creates the record with score 100 if absent,
adds change, stamps lastUpdated with now, and clamps the score into 0..200.
The JS function body contains no return statement, so a call to it
evaluates to undefined; the second component models that returned value. -/
def updateReputation (rep : Table RepRecord) (key : String) (change : Int)
    (now : Nat) : Table RepRecord × Option Int :=
  let r := (lookupKey rep key).getD { score := 100, lastUpdated := now }
  let s := r.score + change
  let s := max 0 (min 200 s)
  (setKey rep key { score := s, lastUpdated := now }, none)

/-- Source getReputation: pure read, default 100 for an absent record. -/
def getReputation (rep : Table RepRecord) (key : String) : Int :=
  match lookupKey rep key with
  | some r => r.score
  | none => 100

/-- Fields of the 403 deny response that depend on the record. -/
structure DenyInfo where
  remainingMs : Nat
  blockedForMinutes : Nat
  remainingSeconds : Nat
  deriving DecidableEq

/-- Result of the admission check. -/
inductive AdmissionResult where
  | allow : AdmissionResult
  | deny : DenyInfo → AdmissionResult
  deriving DecidableEq

/-- Source checkBlocked middleware for one key at one instant: deny while a
set blockedUntil lies in the future; lazily reset an elapsed blockedUntil
to the 0 sentinel and allow; otherwise allow untouched.  JS truthiness of
entry.blockedUntil is the 0-sentinel test. -/
def checkBlocked (penalties : Table PenaltyRecord) (key : String) (now : Nat) :
    AdmissionResult × Table PenaltyRecord :=
  match lookupKey penalties key with
  | none => (AdmissionResult.allow, penalties)
  | some entry =>
      if 0 < entry.blockedUntil ∧ now < entry.blockedUntil then
        let remainingMs := entry.blockedUntil - now
        (AdmissionResult.deny
          { remainingMs := remainingMs
            blockedForMinutes := humanMinutes remainingMs
            remainingSeconds := humanSeconds remainingMs },
         penalties)
      else if 0 < entry.blockedUntil ∧ entry.blockedUntil ≤ now then
        (AdmissionResult.allow,
         setKey penalties key { entry with blockedUntil := 0 })
      else (AdmissionResult.allow, penalties)

/-- Fields of the 429 response built by the rate limit handler. -/
structure RateLimitResponse where
  limit : Nat
  blockedForMinutes : Nat
  violations : Nat
  unblockTime : Nat
  reputation : Int
  deriving DecidableEq

/-- Source rateLimitHandlerFactory(max) applied to one request: create the
penalty record if absent, bump violations, set blockedUntil from the
escalation tier, apply the -10 reputation hit, and report. -/
def rateLimitHandler (penalties : Table PenaltyRecord) (rep : Table RepRecord)
    (key : String) (maxReq : Nat) (now : Nat) :
    RateLimitResponse × Table PenaltyRecord × Table RepRecord :=
  let entry := (lookupKey penalties key).getD { violations := 0, blockedUntil := 0 }
  let entry := { entry with violations := entry.violations + 1 }
  let blockMs := computeBlockMs entry.violations
  let entry := { entry with blockedUntil := now + blockMs }
  let penalties := setKey penalties key entry
  let rep := (updateReputation rep key (-10) now).1
  ({ limit := maxReq
     blockedForMinutes := humanMinutes blockMs
     violations := entry.violations
     unblockTime := now + blockMs
     reputation := getReputation rep key },
   penalties, rep)

/-- Modelled from the spec: the per-key fixed-window request counter lives in
the express-rate-limit dependency, which is not part of this repository.
Spec 4.3: per (key, action class), count requests since the current window
began; start a fresh window when now passes the window end; the triggering
request is itself counted, and exceeded is reported when the count goes
above maxRequests. -/
structure WindowState where
  count : Nat
  windowEnd : Nat
  deriving DecidableEq

/-- Modelled from the spec: one request through the window counter. -/
def stepWindow (st : Option WindowState) (windowMs maxReq now : Nat) :
    Bool × WindowState :=
  let w :=
    match st with
    | some w =>
        if now < w.windowEnd then w else { count := 0, windowEnd := now + windowMs }
    | none => { count := 0, windowEnd := now + windowMs }
  let w := { w with count := w.count + 1 }
  (decide (maxReq < w.count), w)

/-- Exceeded flags of a sequence of requests through the window counter. -/
def runWindow (windowMs maxReq : Nat) (st : Option WindowState) :
    List Nat → List Bool × Option WindowState
  | [] => ([], st)
  | t :: ts =>
      let r := stepWindow st windowMs maxReq t
      let rest := runWindow windowMs maxReq (some r.2) ts
      (r.1 :: rest.1, rest.2)

/-- The process-wide mutable state: the two source tables plus the window
counter state of the action class under consideration. -/
structure SysState where
  penalties : Table PenaltyRecord
  reputation : Table RepRecord
  windows : Table WindowState
  deriving DecidableEq

/-- Source GET /admin/penalties: reports both core state tables. -/
def snapshotState (st : SysState) : Table PenaltyRecord × Table RepRecord :=
  (st.penalties, st.reputation)

/-- Reading a reputation score is a pure lookup; the state passes through. -/
def readReputationOp (st : SysState) (key : String) : Int × SysState :=
  (getReputation st.reputation key, st)

/-- Outcome of one request to a protected route. -/
inductive ReqOutcome where
  | denied : DenyInfo → ReqOutcome
  | limited : RateLimitResponse → ReqOutcome
  | ok : Int → ReqOutcome
  deriving DecidableEq

/-- One request to a protected route: checkBlocked runs first and, on deny,
responds without reaching the limiter or the route body; on allow the
window counter records the request, an exceeded window triggers the rate
limit handler, and otherwise the route body runs, applying its reward
(+5 for report, +2 for upload, none for browse). -/
def handleRequest (st : SysState) (key : String) (windowMs maxReq : Nat)
    (reward : Option Int) (now : Nat) : ReqOutcome × SysState :=
  match checkBlocked st.penalties key now with
  | (AdmissionResult.deny info, p) =>
      (ReqOutcome.denied info, { st with penalties := p })
  | (AdmissionResult.allow, p) =>
      let st := { st with penalties := p }
      let r := stepWindow (lookupKey st.windows key) windowMs maxReq now
      let st := { st with windows := setKey st.windows key r.2 }
      if r.1 then
        let h := rateLimitHandler st.penalties st.reputation key maxReq now
        (ReqOutcome.limited h.1,
         { st with penalties := h.2.1, reputation := h.2.2 })
      else
        match reward with
        | some d =>
            let rep := (updateReputation st.reputation key d now).1
            (ReqOutcome.ok (getReputation rep key), { st with reputation := rep })
        | none => (ReqOutcome.ok (getReputation st.reputation key), st)

/-- Request-path operations that touch the per-key tables. -/
inductive Op where
  | check : String → Nat → Op
  | violate : String → Nat → Op
  | adjust : String → Int → Nat → Op
  deriving DecidableEq

/-- Effect of one operation on the process state (responses discarded). -/
def applyOp (st : SysState) : Op → SysState
  | Op.check key now => { st with penalties := (checkBlocked st.penalties key now).2 }
  | Op.violate key now =>
      let h := rateLimitHandler st.penalties st.reputation key 0 now
      { st with penalties := h.2.1, reputation := h.2.2 }
  | Op.adjust key d now =>
      { st with reputation := (updateReputation st.reputation key d now).1 }

/-- Effect of a sequence of operations. -/
def applyOps (st : SysState) (ops : List Op) : SysState := ops.foldl applyOp st

/-- Violation count stored for a key in a penalties table, 0 when no
record exists. -/
def violGetD (p : Table PenaltyRecord) (key : String) : Nat :=
  ((lookupKey p key).map PenaltyRecord.violations).getD 0

/-- Violation count stored for a key, 0 when no record exists. -/
def violationsOf (st : SysState) (key : String) : Nat :=
  violGetD st.penalties key

/-- Block durations handed out by successive rate limit handler invocations
at the given instants. -/
def blockDurations (penalties : Table PenaltyRecord) (rep : Table RepRecord)
    (key : String) (maxReq : Nat) : List Nat → List Nat
  | [] => []
  | t :: ts =>
      let h := rateLimitHandler penalties rep key maxReq t
      (h.1.unblockTime - t) :: blockDurations h.2.1 h.2.2 key maxReq ts

/-- Fold a sequence of adjust calls (key, delta, time) over the table. -/
def applyAdjustments (rep : Table RepRecord) :
    List (String × Int × Nat) → Table RepRecord
  | [] => rep
  | (k, d, t) :: rest => applyAdjustments (updateReputation rep k d t).1 rest

/-- Every stored reputation score lies in the range 0..200. -/
def RepInRange (rep : Table RepRecord) : Prop :=
  ∀ k r, lookupKey rep k = some r → 0 ≤ r.score ∧ r.score ≤ 200

/-! Basic table lemmas. -/

theorem lookupKey_setKey_self {α : Type} (t : Table α) (k : String) (v : α) :
    lookupKey (setKey t k v) k = some v := by
  induction t with
  | nil => simp [setKey, lookupKey]
  | cons hd tl ih =>
      obtain ⟨k1, v1⟩ := hd
      by_cases h : k1 = k
      · simp [setKey, h, lookupKey]
      · simp [setKey, h, lookupKey, ih]

theorem lookupKey_setKey_ne {α : Type} (t : Table α) (k k2 : String) (v : α)
    (h : k ≠ k2) : lookupKey (setKey t k v) k2 = lookupKey t k2 := by
  induction t with
  | nil => simp [setKey, lookupKey, h]
  | cons hd tl ih =>
      obtain ⟨k1, v1⟩ := hd
      by_cases h1 : k1 = k
      · subst h1; simp [setKey, lookupKey, h, ih]
      · simp [setKey, h1, lookupKey, ih]

/-! Case lemmas for the admission check. -/

theorem checkBlocked_none (p : Table PenaltyRecord) (key : String) (now : Nat)
    (h : lookupKey p key = none) :
    checkBlocked p key now = (AdmissionResult.allow, p) := by
  simp [checkBlocked, h]

theorem checkBlocked_blocked (p : Table PenaltyRecord) (key : String)
    (now : Nat) (e : PenaltyRecord) (h : lookupKey p key = some e)
    (h1 : 0 < e.blockedUntil) (h2 : now < e.blockedUntil) :
    checkBlocked p key now =
      (AdmissionResult.deny
        { remainingMs := e.blockedUntil - now
          blockedForMinutes := humanMinutes (e.blockedUntil - now)
          remainingSeconds := humanSeconds (e.blockedUntil - now) }, p) := by
  simp [checkBlocked, h, h1, h2]

theorem checkBlocked_reset (p : Table PenaltyRecord) (key : String)
    (now : Nat) (e : PenaltyRecord) (h : lookupKey p key = some e)
    (h1 : 0 < e.blockedUntil) (h2 : e.blockedUntil ≤ now) :
    checkBlocked p key now =
      (AdmissionResult.allow, setKey p key { e with blockedUntil := 0 }) := by
  have hn : ¬ (0 < e.blockedUntil ∧ now < e.blockedUntil) := by omega
  simp [checkBlocked, h, hn, h1, h2]

theorem checkBlocked_zero (p : Table PenaltyRecord) (key : String)
    (now : Nat) (e : PenaltyRecord) (h : lookupKey p key = some e)
    (h0 : e.blockedUntil = 0) :
    checkBlocked p key now = (AdmissionResult.allow, p) := by
  simp [checkBlocked, h, h0]

theorem checkBlocked_violGetD (p : Table PenaltyRecord) (key key2 : String)
    (now : Nat) : violGetD (checkBlocked p key now).2 key2 = violGetD p key2 := by
  match hl : lookupKey p key with
  | none => rw [checkBlocked_none p key now hl]
  | some e =>
      by_cases hb : 0 < e.blockedUntil ∧ now < e.blockedUntil
      · rw [checkBlocked_blocked p key now e hl hb.1 hb.2]
      · by_cases h0 : e.blockedUntil = 0
        · rw [checkBlocked_zero p key now e hl h0]
        · have hb1 : 0 < e.blockedUntil := Nat.pos_of_ne_zero h0
          have hb2 : e.blockedUntil ≤ now := by omega
          rw [checkBlocked_reset p key now e hl hb1 hb2]
          by_cases hk : key = key2
          · subst hk
            simp [violGetD, lookupKey_setKey_self, hl]
          · simp [violGetD, lookupKey_setKey_ne _ _ _ _ hk]

theorem checkBlocked_deny_state (p : Table PenaltyRecord) (key : String)
    (now : Nat) (info : DenyInfo)
    (hdeny : (checkBlocked p key now).1 = AdmissionResult.deny info) :
    checkBlocked p key now = (AdmissionResult.deny info, p) := by
  match hl : lookupKey p key with
  | none => rw [checkBlocked_none p key now hl] at hdeny ⊢; simp at hdeny
  | some e =>
      by_cases hb : 0 < e.blockedUntil ∧ now < e.blockedUntil
      · rw [checkBlocked_blocked p key now e hl hb.1 hb.2] at hdeny ⊢
        simp only at hdeny
        rw [← hdeny]
      · by_cases h0 : e.blockedUntil = 0
        · rw [checkBlocked_zero p key now e hl h0] at hdeny; simp at hdeny
        · have hb1 : 0 < e.blockedUntil := Nat.pos_of_ne_zero h0
          have hb2 : e.blockedUntil ≤ now := by omega
          rw [checkBlocked_reset p key now e hl hb1 hb2] at hdeny
          simp at hdeny

/-! Lemmas for the rate limit handler. -/

theorem rateLimitHandler_penalties (p : Table PenaltyRecord)
    (r : Table RepRecord) (key : String) (maxReq now : Nat) :
    (rateLimitHandler p r key maxReq now).2.1 =
      setKey p key
        { violations := violGetD p key + 1
          blockedUntil := now + computeBlockMs (violGetD p key + 1) } ∧
    (rateLimitHandler p r key maxReq now).1.unblockTime =
      now + computeBlockMs (violGetD p key + 1) := by
  match hl : lookupKey p key with
  | none => simp [rateLimitHandler, violGetD, hl]
  | some e => simp [rateLimitHandler, violGetD, hl]

theorem rateLimitHandler_violGetD (p : Table PenaltyRecord)
    (r : Table RepRecord) (key key2 : String) (maxReq now : Nat) :
    violGetD (rateLimitHandler p r key maxReq now).2.1 key2 =
      violGetD p key2 + (if key = key2 then 1 else 0) := by
  rw [(rateLimitHandler_penalties p r key maxReq now).1]
  by_cases hk : key = key2
  · subst hk
    simp [violGetD, lookupKey_setKey_self]
  · simp [violGetD, lookupKey_setKey_ne _ _ _ _ hk, hk]

/-! Lemmas for the reputation scorekeeper. -/

theorem updateReputation_lookup (rep : Table RepRecord) (key : String)
    (change : Int) (now : Nat) :
    lookupKey (updateReputation rep key change now).1 key =
      some { score := max 0 (min 200 (getReputation rep key + change))
             lastUpdated := now } := by
  match h : lookupKey rep key with
  | none => simp [updateReputation, getReputation, h, lookupKey_setKey_self]
  | some r => simp [updateReputation, getReputation, h, lookupKey_setKey_self]

theorem updateReputation_lookup_ne (rep : Table RepRecord) (key : String)
    (change : Int) (now : Nat) (k2 : String) (h : key ≠ k2) :
    lookupKey (updateReputation rep key change now).1 k2 = lookupKey rep k2 := by
  simp [updateReputation, lookupKey_setKey_ne _ _ _ _ h]

theorem updateReputation_preserves (rep : Table RepRecord) (key : String)
    (change : Int) (now : Nat) (h : RepInRange rep) :
    RepInRange (updateReputation rep key change now).1 := by
  intro k r hl
  by_cases hk : key = k
  · subst hk
    rw [updateReputation_lookup] at hl
    cases hl
    exact ⟨le_max_left _ _, max_le (by norm_num) (min_le_left _ _)⟩
  · rw [updateReputation_lookup_ne rep key change now k hk] at hl
    exact h k r hl

theorem applyAdjustments_preserves :
    ∀ (steps : List (String × Int × Nat)) (rep : Table RepRecord),
      RepInRange rep → RepInRange (applyAdjustments rep steps)
  | [], _, h => h
  | (k, d, t) :: rest, rep, h =>
      applyAdjustments_preserves rest _ (updateReputation_preserves rep k d t h)

/-! Monotonicity of the stored violation count. -/

theorem violationsOf_applyOp (st : SysState) (op : Op) (key : String) :
    violationsOf st key ≤ violationsOf (applyOp st op) key := by
  match op with
  | Op.check k n =>
      simp only [applyOp, violationsOf]
      rw [checkBlocked_violGetD st.penalties k key n]
  | Op.violate k n =>
      simp only [applyOp, violationsOf]
      rw [rateLimitHandler_violGetD st.penalties st.reputation k key 0 n]
      omega
  | Op.adjust k d n =>
      simp [applyOp, violationsOf]

theorem violationsOf_applyOps (st : SysState) (ops : List Op) (key : String) :
    violationsOf st key ≤ violationsOf (applyOps st ops) key := by
  induction ops generalizing st with
  | nil => simp [applyOps]
  | cons op ops ih =>
      calc violationsOf st key ≤ violationsOf (applyOp st op) key :=
            violationsOf_applyOp st op key
        _ ≤ violationsOf (applyOps (applyOp st op) ops) key := ih (applyOp st op)
        _ = violationsOf (applyOps st (op :: ops)) key := by simp [applyOps, List.foldl]

/-! Lemmas for the escalation run. -/

theorem blockDurations_eq (key : String) (maxReq : Nat) :
    ∀ (ts : List Nat) (p : Table PenaltyRecord) (r : Table RepRecord),
      blockDurations p r key maxReq ts =
        (List.range ts.length).map (fun n => computeBlockMs (violGetD p key + n + 1)) := by
  intro ts
  induction ts with
  | nil => intro p r; simp [blockDurations]
  | cons t ts ih =>
      intro p r
      have hp := rateLimitHandler_penalties p r key maxReq t
      simp only [blockDurations, hp.2, hp.1]
      have hv : violGetD (setKey p key
          { violations := violGetD p key + 1
            blockedUntil := t + computeBlockMs (violGetD p key + 1) }) key =
          violGetD p key + 1 := by
        simp [violGetD, lookupKey_setKey_self]
      rw [ih, hv]
      rw [List.length_cons, List.range_succ_eq_map, List.map_cons, List.map_map]
      simp only [Nat.add_zero]
      congr 1
      · omega
      · apply List.map_congr_left
        intro n _
        simp only [Function.comp]
        congr 1
        omega

/-! Lemmas for the window counter. -/

theorem stepWindow_within (w : WindowState) (windowMs maxReq now : Nat)
    (h : now < w.windowEnd) :
    stepWindow (some w) windowMs maxReq now =
      (decide (maxReq < w.count + 1), { count := w.count + 1, windowEnd := w.windowEnd }) := by
  simp [stepWindow, h]

theorem runWindow_within (windowMs maxReq : Nat) :
    ∀ (ts : List Nat) (w : WindowState), (∀ t ∈ ts, t < w.windowEnd) →
      (runWindow windowMs maxReq (some w) ts).1 =
        (List.range ts.length).map (fun i => decide (maxReq < w.count + i + 1)) := by
  intro ts
  induction ts with
  | nil => intro w hw; simp [runWindow]
  | cons t ts ih =>
      intro w hw
      have ht : t < w.windowEnd := hw t (List.mem_cons_self t ts)
      simp only [runWindow, stepWindow_within w windowMs maxReq t ht]
      rw [ih { count := w.count + 1, windowEnd := w.windowEnd }
            (fun t2 ht2 => hw t2 (List.mem_cons_of_mem t ht2))]
      rw [List.length_cons, List.range_succ_eq_map, List.map_cons, List.map_map]
      simp only [Nat.add_zero]
      congr 1
      apply List.map_congr_left
      intro n _
      simp only [Function.comp, Nat.succ_eq_add_one]
      have harg : w.count + 1 + n + 1 = w.count + (n + 1) + 1 := by omega
      rw [harg]

/-! Rounding of the reported minutes. -/

theorem humanMinutes_eq_round (ms : Nat) :
    (humanMinutes ms : ℤ) = round ((ms : ℚ) / 60000) := by
  have h1 : ((ms : ℚ) / 60000 + 1 / 2) = ((ms + 30000 : ℕ) : ℚ) / ((60000 : ℕ) : ℚ) := by
    push_cast
    ring
  rw [round_eq, h1, ← Int.natCast_floor_eq_floor (by positivity), Nat.floor_div_eq_div]
  simp [humanMinutes]

/-! The claims. -/

/-- C1: the escalation maps the lifetime violation count to the block
duration: for a key with no prior record, the 1st violation yields a
60000 ms (1 minute) block, the 2nd a 300000 ms (5 minute) block, and the
Nth for every N of 3 or more a 3600000 ms (60 minute) block, whatever the
instants at which the violations happen. -/
theorem escalation_tiers (key : String) (maxReq : Nat) (ts : List Nat)
    (p : Table PenaltyRecord) (r : Table RepRecord)
    (hfresh : lookupKey p key = none) :
    blockDurations p r key maxReq ts =
      (List.range ts.length).map
        (fun n => if n = 0 then 60000 else if n = 1 then 300000 else 3600000) := by
  rw [blockDurations_eq]
  have hv : violGetD p key = 0 := by simp [violGetD, hfresh]
  rw [hv]
  apply List.map_congr_left
  intro n _
  match n with
  | 0 => norm_num [computeBlockMs]
  | 1 => norm_num [computeBlockMs]
  | (n + 2) =>
      have h1 : 0 + (n + 2) + 1 ≠ 1 := by omega
      have h2 : 0 + (n + 2) + 1 ≠ 2 := by omega
      simp [computeBlockMs, h1, h2]

/-- C1 witness: four violations of a fresh key at arbitrary instants. -/
theorem escalation_tiers_witness :
    lookupKey ([] : Table PenaltyRecord) "alice" = none ∧
    blockDurations [] [] "alice" 5 [0, 7, 999, 123456] =
      (List.range 4).map
        (fun n => if n = 0 then 60000 else if n = 1 then 300000 else 3600000) :=
  ⟨rfl, escalation_tiers "alice" 5 [0, 7, 999, 123456] [] [] rfl⟩

/-- C2: starting from a table whose scores all lie in 0..200 (the empty
table included), every stored score still lies in 0..200 after any finite
sequence of adjustments, and a key without a record gets the default 100
before its first delta: its stored score becomes the clamp of 100 + delta. -/
theorem score_bounded (rep : Table RepRecord) (key : String) (change : Int)
    (now : Nat) (steps : List (String × Int × Nat)) (h : RepInRange rep)
    (hfresh : lookupKey rep key = none) :
    RepInRange (applyAdjustments rep steps) ∧
    lookupKey (updateReputation rep key change now).1 key =
      some { score := max 0 (min 200 (100 + change)), lastUpdated := now } := by
  constructor
  · exact applyAdjustments_preserves steps rep h
  · rw [updateReputation_lookup]
    simp [getReputation, hfresh]

/-- C2 witness: a fresh key adjusted by +5 stores 105; a sequence with an
underflowing and an overflowing delta keeps all scores in range. -/
theorem score_bounded_witness :
    RepInRange ([] : Table RepRecord) ∧
    lookupKey ([] : Table RepRecord) "alice" = none ∧
    (RepInRange (applyAdjustments [] [("alice", -500, 3), ("bob", 999, 4)]) ∧
     lookupKey (updateReputation [] "alice" 5 0).1 "alice" =
       some { score := 105, lastUpdated := 0 }) := by
  have h : RepInRange ([] : Table RepRecord) := fun k r hl => Option.noConfusion hl
  refine ⟨h, rfl, ?_⟩
  have h2 := score_bounded [] "alice" 5 0 [("alice", -500, 3), ("bob", 999, 4)] h rfl
  simpa using h2

/-- C3: while a record with a set blockedUntil is still in the future, the
admission check denies with remainingMs equal to blockedUntil - now and
returns the penalties table unchanged (so repeated calls leave the
violation count untouched); and a deny happens exactly when such a record
exists. -/
theorem deny_iff_blocked (p : Table PenaltyRecord) (key : String) (now : Nat) :
    (∀ e, lookupKey p key = some e → 0 < e.blockedUntil → now < e.blockedUntil →
      checkBlocked p key now =
        (AdmissionResult.deny
          { remainingMs := e.blockedUntil - now
            blockedForMinutes := humanMinutes (e.blockedUntil - now)
            remainingSeconds := humanSeconds (e.blockedUntil - now) }, p)) ∧
    ((checkBlocked p key now).1 ≠ AdmissionResult.allow ↔
      ∃ e, lookupKey p key = some e ∧ 0 < e.blockedUntil ∧ now < e.blockedUntil) := by
  constructor
  · intro e hl h1 h2
    exact checkBlocked_blocked p key now e hl h1 h2
  · constructor
    · intro hne
      match hl : lookupKey p key with
      | none => rw [checkBlocked_none p key now hl] at hne; simp at hne
      | some e =>
          by_cases hb : 0 < e.blockedUntil ∧ now < e.blockedUntil
          · exact ⟨e, rfl, hb.1, hb.2⟩
          · exfalso
            by_cases h0 : e.blockedUntil = 0
            · rw [checkBlocked_zero p key now e hl h0] at hne; simp at hne
            · have hb1 : 0 < e.blockedUntil := Nat.pos_of_ne_zero h0
              have hb2 : e.blockedUntil ≤ now := by omega
              rw [checkBlocked_reset p key now e hl hb1 hb2] at hne
              simp at hne
    · rintro ⟨e, hl, h1, h2⟩
      rw [checkBlocked_blocked p key now e hl h1 h2]
      simp

/-- C3 witness: a key blocked until 1000 checked at 400 is denied with 600
remaining ms and the table untouched. -/
theorem deny_iff_blocked_witness :
    checkBlocked [("bob", ⟨2, 1000⟩)] "bob" 400 =
      (AdmissionResult.deny
        { remainingMs := 600, blockedForMinutes := 0, remainingSeconds := 1 },
       [("bob", ⟨2, 1000⟩)]) := by
  have h := (deny_iff_blocked [("bob", ⟨2, 1000⟩)] "bob" 400).1
    ⟨2, 1000⟩ (by decide) (by decide) (by decide)
  simpa [humanMinutes, humanSeconds] using h

/-- C4: once the stored block of a key has expired, the very next admission
check allows, resets blockedUntil to the 0 sentinel and keeps the stored
violations; and the stored violation count never decreases under any
sequence of request-path operations. -/
theorem expiry_clears (p : Table PenaltyRecord) (key : String) (now : Nat)
    (e : PenaltyRecord) (st : SysState) (ops : List Op)
    (hl : lookupKey p key = some e) (hexp : e.blockedUntil ≤ now) :
    (checkBlocked p key now).1 = AdmissionResult.allow ∧
    lookupKey (checkBlocked p key now).2 key =
      some { violations := e.violations, blockedUntil := 0 } ∧
    violationsOf st key ≤ violationsOf (applyOps st ops) key := by
  obtain ⟨v, b⟩ := e
  by_cases h0 : b = 0
  · subst h0
    rw [checkBlocked_zero p key now ⟨v, 0⟩ hl rfl]
    exact ⟨rfl, hl, violationsOf_applyOps st ops key⟩
  · have hb1 : 0 < b := Nat.pos_of_ne_zero h0
    rw [checkBlocked_reset p key now ⟨v, b⟩ hl hb1 hexp]
    exact ⟨rfl, lookupKey_setKey_self p key _, violationsOf_applyOps st ops key⟩

/-- C4 witness: a block that expired at 500 checked at 600 allows, resets
the sentinel, keeps violations at 3, and a later operation sequence does
not decrease the count. -/
theorem expiry_clears_witness :
    lookupKey ([("bob", ⟨3, 500⟩)] : Table PenaltyRecord) "bob" = some ⟨3, 500⟩ ∧
    (500 : Nat) ≤ 600 ∧
    ((checkBlocked [("bob", ⟨3, 500⟩)] "bob" 600).1 = AdmissionResult.allow ∧
     lookupKey (checkBlocked [("bob", ⟨3, 500⟩)] "bob" 600).2 "bob" =
       some { violations := 3, blockedUntil := 0 } ∧
     violationsOf ⟨[("bob", ⟨3, 500⟩)], [], []⟩ "bob" ≤
       violationsOf (applyOps ⟨[("bob", ⟨3, 500⟩)], [], []⟩
         [Op.check "bob" 600, Op.violate "carol" 700]) "bob") := by
  refine ⟨by decide, by decide, ?_⟩
  exact expiry_clears [("bob", ⟨3, 500⟩)] "bob" 600 ⟨3, 500⟩
    ⟨[("bob", ⟨3, 500⟩)], [], []⟩ [Op.check "bob" 600, Op.violate "carol" 700]
    (by decide) (by decide)

/-- C5: when the admission check denies, the request produces only the deny
response and the whole state (window counters, penalties, reputation) is
returned untouched: the protected operation never runs. -/
theorem deny_frame (st : SysState) (key : String) (windowMs maxReq : Nat)
    (reward : Option Int) (now : Nat) (info : DenyInfo)
    (hdeny : (checkBlocked st.penalties key now).1 = AdmissionResult.deny info) :
    handleRequest st key windowMs maxReq reward now = (ReqOutcome.denied info, st) := by
  have h := checkBlocked_deny_state st.penalties key now info hdeny
  unfold handleRequest
  rw [h]

/-- C5 witness: a denied request leaves a populated state exactly as it
was. -/
theorem deny_frame_witness :
    (checkBlocked ([("bob", ⟨1, 1000⟩)] : Table PenaltyRecord) "bob" 400).1 =
      AdmissionResult.deny
        { remainingMs := 600, blockedForMinutes := 0, remainingSeconds := 1 } ∧
    handleRequest ⟨[("bob", ⟨1, 1000⟩)], [("bob", ⟨90, 0⟩)], [("bob", ⟨2, 2000⟩)]⟩
        "bob" 86400000 5 (some 5) 400 =
      (ReqOutcome.denied
        { remainingMs := 600, blockedForMinutes := 0, remainingSeconds := 1 },
       ⟨[("bob", ⟨1, 1000⟩)], [("bob", ⟨90, 0⟩)], [("bob", ⟨2, 2000⟩)]⟩) := by
  refine ⟨by decide, ?_⟩
  exact deny_frame ⟨[("bob", ⟨1, 1000⟩)], [("bob", ⟨90, 0⟩)], [("bob", ⟨2, 2000⟩)]⟩
    "bob" 86400000 5 (some 5) 400
    { remainingMs := 600, blockedForMinutes := 0, remainingSeconds := 1 } (by decide)

/-- C6 counterexample: from an empty table, adjusting the key alice by +5
stores the score 105 and makes it readable, but the call itself evaluates
to undefined (none) rather than the resulting score, because the source
function body has no return statement. -/
theorem adjust_no_return_value :
    getReputation (updateReputation [] "alice" 5 0).1 "alice" = 105 ∧
    (updateReputation ([] : Table RepRecord) "alice" 5 0).2 ≠ some 105 := by
  constructor
  · decide
  · simp [updateReputation]

/-- C6 (amended): updateReputation creates the record with the default 100
if absent, adds delta, clamps into 0..200 and stamps lastUpdated; the
resulting score is readable afterwards via getReputation, while the call
itself returns undefined (none), not the score. -/
theorem adjust_spec (rep : Table RepRecord) (key : String) (change : Int)
    (now : Nat) :
    lookupKey (updateReputation rep key change now).1 key =
      some { score := max 0 (min 200 (getReputation rep key + change))
             lastUpdated := now } ∧
    getReputation (updateReputation rep key change now).1 key =
      max 0 (min 200 (getReputation rep key + change)) ∧
    (updateReputation rep key change now).2 = none := by
  refine ⟨updateReputation_lookup rep key change now, ?_, rfl⟩
  have hl := updateReputation_lookup rep key change now
  unfold getReputation
  rw [hl]
  rfl

/-- C7: reading the reputation of a key with no record returns the default
100 and creates no record: the state passes through unchanged and a
subsequent snapshot still has no entry for the key. -/
theorem read_absent_default (st : SysState) (key : String)
    (h : lookupKey st.reputation key = none) :
    readReputationOp st key = (100, st) ∧
    lookupKey (snapshotState (readReputationOp st key).2).2 key = none := by
  constructor
  · simp [readReputationOp, getReputation, h]
  · simpa [readReputationOp, snapshotState] using h

/-- C7 witness: the key carol has no record; the read returns 100 and the
snapshot afterwards still has no entry for carol. -/
theorem read_absent_default_witness :
    lookupKey ([("bob", ⟨50, 1⟩)] : Table RepRecord) "carol" = none ∧
    (readReputationOp ⟨[], [("bob", ⟨50, 1⟩)], []⟩ "carol" =
       (100, ⟨[], [("bob", ⟨50, 1⟩)], []⟩) ∧
     lookupKey (snapshotState
         (readReputationOp ⟨[], [("bob", ⟨50, 1⟩)], []⟩ "carol").2).2 "carol" =
       none) := by
  have h : lookupKey ([("bob", ⟨50, 1⟩)] : Table RepRecord) "carol" = none := by decide
  exact ⟨h, read_absent_default ⟨[], [("bob", ⟨50, 1⟩)], []⟩ "carol" h⟩

/-- C8: for an action class with maxRequests N and window W, a burst whose
later requests all stay inside the window opened by the first one reports
thresholdExceeded exactly from the (N+1)th request on: the flag of the
(i+1)th request is the test N < i + 1, so requests 1..N report false and
request N+1 reports true. -/
theorem window_threshold (windowMs maxReq t0 i : Nat) (ts : List Nat)
    (hts : ∀ t ∈ ts, t < t0 + windowMs)
    (hi : i < ((runWindow windowMs maxReq none (t0 :: ts)).1).length) :
    ((runWindow windowMs maxReq none (t0 :: ts)).1).getD i false =
      decide (maxReq < i + 1) := by
  have hfirst : stepWindow none windowMs maxReq t0 =
      (decide (maxReq < 1), { count := 1, windowEnd := t0 + windowMs }) := by
    simp [stepWindow]
  have hrun : (runWindow windowMs maxReq none (t0 :: ts)).1 =
      decide (maxReq < 1) ::
        (List.range ts.length).map (fun j => decide (maxReq < 1 + j + 1)) := by
    simp only [runWindow, hfirst]
    rw [runWindow_within windowMs maxReq ts { count := 1, windowEnd := t0 + windowMs } hts]
  rw [hrun] at hi ⊢
  match i with
  | 0 => simp
  | (j + 1) =>
      rw [List.getD_cons_succ]
      have hj : j < ts.length := by simpa using hi
      rw [List.getD_eq_getElem _ _ (by simpa using hj)]
      simp only [List.getElem_map, List.getElem_range]
      rw [show 1 + j + 1 = j + 1 + 1 from by omega]

/-- C8 witness: with maxRequests 2 and window 1000 opened at 0, the third
request (index 2) reports exceeded. -/
theorem window_threshold_witness :
    (∀ t ∈ [1, 2, 3], t < 0 + 1000) ∧
    2 < ((runWindow 1000 2 none (0 :: [1, 2, 3])).1).length ∧
    ((runWindow 1000 2 none (0 :: [1, 2, 3])).1).getD 2 false = true := by
  refine ⟨by decide, by decide, ?_⟩
  have h := window_threshold 1000 2 0 2 [1, 2, 3] (by decide) (by decide)
  simpa using h

/-- C9 counterexample: with the proxy-chain header present but carrying the
empty string, and no other marker header, the classifier returns false,
while the claim requires true whenever that header is present. -/
theorem suspicion_empty_header :
    detectTorVpn (some "") none none = false := by decide

/-- C9 (amended): the classifier is a pure function of the headers that
returns true exactly when one of the proxy-chain, forwarding/relay or
anonymizing-network headers is present with a non-empty value; in
particular a proxy-chain value listing more than one comma-separated hop
yields true, and all headers absent yields false. -/
theorem suspicion_spec (forwarded via torHeader : Option String) (s : String) :
    (detectTorVpn forwarded via torHeader =
      (truthy forwarded || truthy via || truthy torHeader)) ∧
    (forwarded = some s → 1 < splitCount s →
      detectTorVpn forwarded via torHeader = true) ∧
    detectTorVpn none none none = false := by
  refine ⟨?_, ?_, by decide⟩
  · by_cases h : (truthy forwarded && decide (1 < splitCount (forwarded.getD ""))) = true
    · simp only [detectTorVpn, if_pos h]
      have h1 : truthy forwarded = true := ((Bool.and_eq_true _ _).mp h).1
      simp [h1]
    · simp only [detectTorVpn, if_neg h]
  · intro hf hs
    subst hf
    have hne : s ≠ "" := by
      intro he
      subst he
      exact absurd hs (by decide)
    simp [detectTorVpn, truthy, hne, hs]

/-- C9 witness: a proxy-chain header with two comma-separated hops is
flagged suspicious. -/
theorem suspicion_spec_witness :
    ((some "1.1.1.1, 2.2.2.2" : Option String) = some "1.1.1.1, 2.2.2.2") ∧
    1 < splitCount "1.1.1.1, 2.2.2.2" ∧
    detectTorVpn (some "1.1.1.1, 2.2.2.2") none none = true := by
  have h := suspicion_spec (some "1.1.1.1, 2.2.2.2") none none "1.1.1.1, 2.2.2.2"
  exact ⟨rfl, by decide, h.2.1 rfl (by decide)⟩

/-- C10: the reported minutes figure is the remaining milliseconds divided
by 60000 and rounded to the nearest integer (half up), so a blocked key
with strictly less than 30000 ms remaining is still denied while the
response reports blockedForMinutes = 0. -/
theorem deny_minutes_rounding (p : Table PenaltyRecord) (key : String)
    (now ms : Nat) (e : PenaltyRecord) (hl : lookupKey p key = some e)
    (h1 : 0 < e.blockedUntil) (h2 : now < e.blockedUntil)
    (h3 : e.blockedUntil - now < 30000) :
    (humanMinutes ms : ℤ) = round ((ms : ℚ) / 60000) ∧
    (checkBlocked p key now).1 =
      AdmissionResult.deny
        { remainingMs := e.blockedUntil - now
          blockedForMinutes := 0
          remainingSeconds := humanSeconds (e.blockedUntil - now) } := by
  refine ⟨humanMinutes_eq_round ms, ?_⟩
  rw [checkBlocked_blocked p key now e hl h1 h2]
  have h0 : humanMinutes (e.blockedUntil - now) = 0 :=
    Nat.div_eq_of_lt (by omega)
  rw [h0]

/-- C10 witness: blocked until 20000 and checked at 0, the deny reports 0
minutes while 20000 ms remain; 90000 ms rounds to 2 minutes. -/
theorem deny_minutes_rounding_witness :
    lookupKey ([("k", ⟨1, 20000⟩)] : Table PenaltyRecord) "k" = some ⟨1, 20000⟩ ∧
    (0 : Nat) < 20000 ∧
    20000 - 0 < 30000 ∧
    (((humanMinutes 90000 : ℤ) = round ((90000 : ℚ) / 60000)) ∧
     (checkBlocked [("k", ⟨1, 20000⟩)] "k" 0).1 =
       AdmissionResult.deny
         { remainingMs := 20000, blockedForMinutes := 0, remainingSeconds := 20 }) := by
  refine ⟨by decide, by decide, by decide, ?_⟩
  have h := deny_minutes_rounding [("k", ⟨1, 20000⟩)] "k" 0 90000 ⟨1, 20000⟩
    (by decide) (by decide) (by decide) (by decide)
  simpa using h

end Digitopia
